import Mathlib

/-!
# Verification of the resumable book-ingestion pipeline

A shallow embedding, in Lean 4, of the core of the `scrap_ebook_online`
repository: the content validator, the chapter cache, the checkpoint
store and progress tracker, the retry executor with its retryability
classifier and backoff computation, the chapter-discovery routine, and
the per-chapter scraping loop.  Pure functions of the TypeScript source
become Lean functions; the filesystem-backed stores become explicit
maps threaded through the operations; `Date` timestamps, logging and
the browser driver are elided as they carry no data relevant to the
verified properties.  JavaScript strings are modelled as Lean strings
(the inputs of interest are ASCII, where JS `toLowerCase`, `trim` and
`\s` agree with the ASCII-level models below).
-/

/-! ## String utilities (models of the JS string operations used) -/

/-- Substring test: does `pat` occur as a contiguous infix of `s`?
Models JS `String.prototype.includes`. -/
def listContainsSub (pat s : List Char) : Bool :=
  s.tails.any (fun t => pat.isPrefixOf t)

/-- `s.includes(pat)` on Lean strings. -/
def strIncludes (s pat : String) : Bool :=
  listContainsSub pat.toList s.toList

/-- ASCII model of JS `toLowerCase`. -/
def jsToLower (s : String) : String :=
  String.mk (s.toList.map Char.toLower)

/-- JS whitespace class `\s` restricted to the ASCII characters that occur
in the modelled inputs. -/
def jsWhitespace (c : Char) : Bool :=
  c = ' ' || c = '\t' || c = '\n' || c = '\r'

/-- ASCII model of JS `String.prototype.trim`. -/
def jsTrim (s : String) : String :=
  String.mk (((s.toList.dropWhile (fun c => jsWhitespace c)).reverse.dropWhile
    (fun c => jsWhitespace c)).reverse)

/-- `s.substring(0, n)` — the first `n` characters. -/
def jsSubstringTo (s : String) (n : Nat) : String :=
  String.mk (s.toList.take n)

/-- `s.startsWith(pat)`. -/
def jsStartsWith (s pat : String) : Bool :=
  pat.toList.isPrefixOf s.toList

/-- Drop characters up to and including the first `'>'`; `none` when no
`'>'` remains.  Helper for the tag-stripping regex `/<[^>]*>/g`. -/
def dropPastGt : List Char → Option (List Char)
  | [] => none
  | c :: rest => if c = '>' then some rest else dropPastGt rest

theorem dropPastGt_length : ∀ {l l' : List Char}, dropPastGt l = some l' →
    l'.length < l.length
  | [], _, h => by simp [dropPastGt] at h
  | c :: rest, l', h => by
    by_cases hc : c = '>'
    · simp [dropPastGt, hc] at h
      simp [← h, Nat.lt_succ_of_le]
    · simp [dropPastGt, hc] at h
      exact Nat.lt_succ_of_lt (dropPastGt_length h)

/-- Fuel-driven worker for `stripTags`; the fuel bounds the recursion
depth and is instantiated with the length of the input, which suffices
because every step consumes at least one character. -/
def stripTagsFuel : Nat → List Char → List Char
  | 0, cs => cs
  | _ + 1, [] => []
  | fuel + 1, c :: rest =>
    if c = '<' then
      match dropPastGt rest with
      | some rest' => ' ' :: stripTagsFuel fuel rest'
      | none => c :: rest
    else c :: stripTagsFuel fuel rest

/-- Model of `content.replace(/<[^>]*>/g, ' ')`: every maximal `<...>`
group (no `'>'` inside) is replaced by a single space; a `'<'` with no
later `'>'` is left untouched, as the regex there has no match. -/
def stripTags (cs : List Char) : List Char :=
  stripTagsFuel cs.length cs

/-- Word list of the validator: strip tags, split on whitespace runs,
drop empty fragments, keep only tokens of length `> 1`.  Models
`textOnly.split(/\s+/).filter(w => w.trim().length > 0).filter(w => w.length > 1)`. -/
def contentWords (content : String) : List (List Char) :=
  (((stripTags content.toList).splitOnP jsWhitespace).filter
      (fun w => w.length > 0)).filter (fun w => w.length > 1)

/-! ## ContentValidator (src: content-validator.ts) -/

structure ContentStats where
  wordCount : Nat
  paragraphCount : Nat
  imageCount : Nat
  codeBlockCount : Nat
deriving Repr, DecidableEq

structure ValidationMetadata where
  wordCount : Nat
  hasImages : Bool
  hasCodeBlocks : Bool
deriving Repr, DecidableEq

structure ValidationResult where
  isValid : Bool
  errors : List String
  warnings : List String
  metadata : ValidationMetadata
deriving Repr, DecidableEq

/-- Does the lower-cased text start, at its head, with `'<'`, the given
tag name (already lower-case), then `[^>]*>` ?  Helper for the
case-insensitive counting regexes of `getContentStats`. -/
def tagMatchAt (name : List Char) (cs : List Char) : Option (List Char) :=
  match cs with
  | [] => none
  | c :: rest =>
    if c = '<' ∧ name.isPrefixOf (rest.map Char.toLower) then
      dropPastGt (rest.drop name.length)
    else none

/-- Count the non-overlapping, leftmost matches of the alternation of the
patterns `<nameᵢ[^>]*>` (case-insensitive), scanning left to right as the
JS global regex does. -/
def countTagsFuel (names : List (List Char)) : Nat → List Char → Nat
  | 0, _ => 0
  | _ + 1, [] => 0
  | fuel + 1, c :: rest =>
    match names.firstM (fun n => tagMatchAt n (c :: rest)) with
    | some rest' => 1 + countTagsFuel names fuel rest'
    | none => countTagsFuel names fuel rest

def countTags (names : List (List Char)) (cs : List Char) : Nat :=
  countTagsFuel names cs.length cs

/-- `ContentValidator.getContentStats`. -/
def getContentStats (content : String) : ContentStats :=
  { wordCount := (contentWords content).length
    paragraphCount := countTags [['p']] content.toList
    imageCount := countTags [['i', 'm', 'g']] content.toList
    codeBlockCount :=
      countTags [['p', 'r', 'e'], ['c', 'o', 'd', 'e']] content.toList }

/-- The error-page vocabulary of `isErrorPage`. -/
def errorPatterns : List String :=
  ["404", "page not found", "not found", "403", "access denied",
   "forbidden", "500", "internal server error", "rate limited",
   "too many requests", "service unavailable", "error occurred"]

/-- `ContentValidator.isErrorPage`: any error pattern inside the first
1000 characters of the lower-cased content. -/
def isErrorPage (content : String) : Bool :=
  let headerContent := jsSubstringTo (jsToLower content) 1000
  errorPatterns.any (fun p => strIncludes headerContent p)

/-- The anti-automation vocabulary of `isAntiBotPage`. -/
def antiBotPatterns : List String :=
  ["captcha", "recaptcha", "are you a robot", "verify you are human",
   "cloudflare", "checking your browser", "ddos protection",
   "unusual traffic", "automated access"]

/-- `ContentValidator.isAntiBotPage`: any anti-bot pattern anywhere in
the lower-cased content. -/
def isAntiBotPage (content : String) : Bool :=
  let lowerContent := jsToLower content
  antiBotPatterns.any (fun p => strIncludes lowerContent p)

/-- `ContentValidator.hasMinimumContent`; the `minWords || MIN_WORD_COUNT`
fallback makes an absent (or zero) argument mean the default 100. -/
def hasMinimumContent (content : String) (minWords : Option Nat := none) : Bool :=
  let threshold := match minWords with
    | some m => if m = 0 then 100 else m
    | none => 100
  (getContentStats content).wordCount ≥ threshold

/-- `ContentValidator.validateChapter` (the `chapterTitle` argument is
used only for logging in the source and does not influence the result). -/
def validateChapter (content : String) (_chapterTitle : String) : ValidationResult :=
  let errors0 : List String :=
    if (jsTrim content).length = 0 then ["Content is empty"] else []
  let errors1 : List String :=
    errors0 ++ (if isErrorPage content then
      ["Content appears to be an error page (404, 403, etc.)"] else [])
  let errors2 : List String :=
    errors1 ++ (if isAntiBotPage content then
      ["Content appears to be an anti-bot challenge page"] else [])
  let warnings : List String :=
    if ¬ hasMinimumContent content then
      ["Content has fewer than 100 words"] else []
  let stats := getContentStats content
  let errors : List String :=
    errors2 ++ (if stats.wordCount < 50 then
      ["Word count is suspiciously low (< 50 words)"] else [])
  { isValid := errors.isEmpty
    errors := errors
    warnings := warnings
    metadata :=
      { wordCount := stats.wordCount
        hasImages := stats.imageCount > 0
        hasCodeBlocks := stats.codeBlockCount > 0 } }

/-! ## Retry executor (src: utils/retry.ts) -/

/-- A JavaScript `Error` as observed by `isRetryableError`: its `name`,
its `message`, and the optional `statusCode` / `status` properties read
off the error object. -/
structure JsError where
  name : String
  message : String
  statusCode : Option Nat := none
  status : Option Nat := none
deriving Repr, DecidableEq

/-- `(error as any).statusCode || (error as any).status`: JS `||` falls
through on the falsy values `undefined` and `0`. -/
def effectiveStatus (e : JsError) : Option Nat :=
  match e.statusCode with
  | some n => if n = 0 then e.status else some n
  | none => e.status

/-- `isRetryableError` from utils/retry.ts, clause by clause. -/
def isRetryableError (e : JsError) : Bool :=
  let message := jsToLower e.message
  let name := jsToLower e.name
  if strIncludes name "networkerror" || strIncludes message "network" ||
      strIncludes message "econnreset" || strIncludes message "econnrefused" ||
      strIncludes message "etimedout" || strIncludes message "socket hang up" then
    true
  else if strIncludes name "timeouterror" || strIncludes message "timeout" then
    true
  else if (match effectiveStatus e with
      | some sc =>
        sc ≠ 0 && (sc == 429 || (500 ≤ sc && sc < 600 && sc ≠ 501))
      | none => false) then
    true
  else if strIncludes message "page.goto" && strIncludes message "timeout" then
    true
  else if strIncludes message "navigation" then
    true
  else
    false

/-- Modelled from the spec: the retryability classifier as §4.4 words it
(no such second classifier exists in the source; this definition follows
the spec sentence for comparison with `isRetryableError`).  Network-class
failures are connection reset, connection refused, DNS resolution
failures (Node surfaces these as `getaddrinfo ENOTFOUND`/`EAI_AGAIN`
messages) and timeouts; then HTTP 429, HTTP 5xx except 501, and
navigation-timeout-class failures. -/
def specRetryable (e : JsError) : Bool :=
  let message := jsToLower e.message
  let name := jsToLower e.name
  -- network class: connection reset / refused, DNS, timeout
  (strIncludes message "econnreset" || strIncludes message "econnrefused" ||
    strIncludes message "getaddrinfo" || strIncludes message "enotfound" ||
    strIncludes message "eai_again" ||
    strIncludes name "timeouterror" || strIncludes message "timeout") ||
  -- HTTP 429 and 5xx except 501
  (match effectiveStatus e with
    | some sc => sc == 429 || (500 ≤ sc && sc < 600 && sc ≠ 501)
    | none => false) ||
  -- navigation-timeout class
  (strIncludes message "navigation" && strIncludes message "timeout")

/-- JS `Math.round`: round half toward positive infinity. -/
def jsRound (x : ℚ) : ℤ :=
  Int.floor (x + 1 / 2)

/-- `getBackoffDelay` from utils/retry.ts.  `rand` stands for the value
returned by `Math.random()`, so `0 ≤ rand < 1`; the result is the delay
in milliseconds. -/
def getBackoffDelay (attempt : Nat) (base : ℚ) (rand : ℚ) : ℤ :=
  let baseDelay : ℚ := base ^ attempt * 1000
  let randomFactor : ℚ := 1 + (rand * 2 - 1) * (1 / 5)
  min (jsRound (baseDelay * randomFactor)) 60000

/-- One result type for the retry loop: the value, or the last error. -/
def RetryOutcome (T : Type) := Except JsError T

/-- The loop body of `withRetry`, with `remaining = maxAttempts - attempt`
(so `remaining = 1` is the `attempt === maxAttempts - 1` last-attempt
test).  `fn a` is the outcome of the `a`-th call of the wrapped
operation; `delayAt a` is the backoff delay the executor would sleep
before retry `a + 1`.  Alongside the outcome, the list of backoff sleeps
actually performed is returned, so "rethrow immediately, without any
backoff wait" is observable. -/
def withRetryGo {T : Type} (fn : Nat → Except JsError T)
    (shouldRetry : JsError → Bool) (delayAt : Nat → ℤ) :
    Nat → Nat → Except JsError T × List ℤ
  | _, 0 => (Except.error ⟨"Error", "Retry failed with unknown error", none, none⟩, [])
  | attempt, remaining + 1 =>
    match fn attempt with
    | Except.ok v => (Except.ok v, [])
    | Except.error e =>
      if ¬ shouldRetry e ∨ remaining = 0 then
        (Except.error e, [])
      else
        let rest := withRetryGo fn shouldRetry delayAt (attempt + 1) remaining
        (rest.1, delayAt attempt :: rest.2)

/-- `withRetry` from utils/retry.ts over the outcome function `fn`;
when no `shouldRetry` override is supplied the source uses
`isRetryableError`. -/
def withRetry {T : Type} (fn : Nat → Except JsError T) (maxAttempts : Nat)
    (shouldRetry : JsError → Bool := isRetryableError)
    (delayAt : Nat → ℤ := fun _ => 0) : Except JsError T × List ℤ :=
  withRetryGo fn shouldRetry delayAt 0 maxAttempts

/-! ## CacheManager (src: storage/cache-manager.ts)

The per-chapter JSON files become a map from `(bookId, chapterIndex)` to
records; the SHA-256 digest is an arbitrary function `sha` threaded as a
parameter (the verified properties hold for the actual hash as for any
other deterministic digest function). -/

structure CachedChapter where
  chapterIndex : Nat
  title : String
  url : String
  content : String
  scrapedAt : String
  hash : String
deriving Repr, DecidableEq

/-- The on-disk chapter files, keyed by book id and chapter index. -/
def CacheStore : Type := String → Nat → Option CachedChapter

/-- `CacheManager.getChapter`: a missing file, an unreadable record and a
digest mismatch all yield `none`; every failure mode is caught and turned
into a miss, never an error. -/
def getChapter (sha : String → String) (store : CacheStore)
    (bookId : String) (chapterIndex : Nat) : Option CachedChapter :=
  match store bookId chapterIndex with
  | none => none
  | some chapter =>
    let calculatedHash := sha chapter.content
    if calculatedHash ≠ chapter.hash then none else some chapter

/-- `CacheManager.saveChapter`: recompute the digest, stamp the capture
time, write atomically at `(bookId, chapter.chapterIndex)`. -/
def saveChapter (sha : String → String) (store : CacheStore)
    (bookId : String) (chapter : CachedChapter) (now : String) : CacheStore :=
  fun id idx =>
    if id = bookId ∧ idx = chapter.chapterIndex then
      some { chapter with hash := sha chapter.content, scrapedAt := now }
    else store id idx

/-! ## CheckpointManager (src: progress/checkpoint-manager.ts)

The checkpoint files become a map from book id to checkpoints.  The
`startedAt`/`lastUpdated` timestamp strings of the source are elided:
they are written from the wall clock and never read back by the core. -/

inductive CkStatus where
  | in_progress
  | completed
  | failed
deriving Repr, DecidableEq

structure Checkpoint where
  bookId : String
  bookUrl : String
  totalChapters : Nat
  completedChapters : List Nat
  failedChapters : List Nat
  currentChapter : Option Nat
  status : CkStatus
deriving Repr, DecidableEq

def CheckpointStore : Type := String → Option Checkpoint

/-- The ascending numeric sort `arr.sort((a, b) => a - b)`; modelled by
the stable `insertionSort` (on numbers, any stable ascending sort agrees
with the engine's sort). -/
def jsSortNums (l : List Nat) : List Nat :=
  l.insertionSort (· ≤ ·)

/-- `CheckpointManager.saveCheckpoint` (atomic write at the checkpoint's
own book id). -/
def saveCheckpoint (store : CheckpointStore) (checkpoint : Checkpoint) :
    CheckpointStore :=
  fun id => if id = checkpoint.bookId then some checkpoint else store id

/-- `CheckpointManager.loadCheckpoint`. -/
def loadCheckpoint (store : CheckpointStore) (bookId : String) :
    Option Checkpoint :=
  store bookId

/-- `CheckpointManager.markChapterComplete`: on a missing checkpoint the
operation only logs and returns (the store is untouched and no error is
raised); otherwise the index is pushed into `completedChapters` (unless
already present) which is then numerically sorted, the index is filtered
out of `failedChapters`, and the checkpoint is saved. -/
def markChapterComplete (store : CheckpointStore) (bookId : String)
    (chapterIndex : Nat) : CheckpointStore :=
  match loadCheckpoint store bookId with
  | none => store
  | some checkpoint =>
    let completed :=
      if checkpoint.completedChapters.contains chapterIndex then
        checkpoint.completedChapters
      else jsSortNums (checkpoint.completedChapters ++ [chapterIndex])
    let failed := checkpoint.failedChapters.filter (fun idx => idx ≠ chapterIndex)
    saveCheckpoint store
      { checkpoint with completedChapters := completed, failedChapters := failed }

/-- `CheckpointManager.markChapterFailed`: symmetric push into
`failedChapters`; note that the source does not consult or modify
`completedChapters` here. -/
def markChapterFailed (store : CheckpointStore) (bookId : String)
    (chapterIndex : Nat) : CheckpointStore :=
  match loadCheckpoint store bookId with
  | none => store
  | some checkpoint =>
    let failed :=
      if checkpoint.failedChapters.contains chapterIndex then
        checkpoint.failedChapters
      else jsSortNums (checkpoint.failedChapters ++ [chapterIndex])
    saveCheckpoint store { checkpoint with failedChapters := failed }

/-- `CheckpointManager.deleteCheckpoint` (idempotent unlink). -/
def deleteCheckpoint (store : CheckpointStore) (bookId : String) :
    CheckpointStore :=
  fun id => if id = bookId then none else store id

/-- `CheckpointManager.createCheckpoint`. -/
def createCheckpoint (store : CheckpointStore) (bookId bookUrl : String)
    (totalChapters : Nat) : Checkpoint × CheckpointStore :=
  let checkpoint : Checkpoint :=
    { bookId := bookId
      bookUrl := bookUrl
      totalChapters := totalChapters
      completedChapters := []
      failedChapters := []
      currentChapter := none
      status := CkStatus.in_progress }
  (checkpoint, saveCheckpoint store checkpoint)

/-! ## ProgressTracker (src: progress/progress-tracker.ts) -/

structure Tracker where
  bookId : String
  bookUrl : String
  totalChapters : Nat
  checkpoint : Option Checkpoint
deriving Repr, DecidableEq

/-- `ProgressTracker.initialize`: load an existing checkpoint, or create
a fresh one. -/
def trackerInitialize (checkpointStore : CheckpointStore)
    (bookId bookUrl : String) (totalChapters : Nat) :
    Tracker × CheckpointStore :=
  match loadCheckpoint checkpointStore bookId with
  | some checkpoint =>
    ({ bookId, bookUrl, totalChapters, checkpoint := some checkpoint },
      checkpointStore)
  | none =>
    let (checkpoint, store') :=
      createCheckpoint checkpointStore bookId bookUrl totalChapters
    ({ bookId, bookUrl, totalChapters, checkpoint := some checkpoint }, store')

/-- `ProgressTracker.getRemainingChapters`: every index `0 ≤ i < total`
not contained in the checkpoint's completed set, in loop order. -/
def getRemainingChapters (t : Tracker) : List Nat :=
  match t.checkpoint with
  | none => List.range t.totalChapters
  | some checkpoint =>
    (List.range t.totalChapters).filter
      (fun i => ¬ checkpoint.completedChapters.contains i)

/-- `ProgressTracker.startChapter`; `none` checkpoint throws in the
source, modelled by `Except.error`. -/
def startChapter (t : Tracker) (store : CheckpointStore)
    (chapterIndex : Nat) : Except String (Tracker × CheckpointStore) :=
  match t.checkpoint with
  | none => Except.error "ProgressTracker not initialized"
  | some checkpoint =>
    let checkpoint' := { checkpoint with currentChapter := some chapterIndex }
    Except.ok ({ t with checkpoint := some checkpoint' },
      saveCheckpoint store checkpoint')

/-- `ProgressTracker.completeChapter`: delegate to the manager, then
reload the checkpoint from the store. -/
def completeChapter (t : Tracker) (store : CheckpointStore)
    (chapterIndex : Nat) : Except String (Tracker × CheckpointStore) :=
  match t.checkpoint with
  | none => Except.error "ProgressTracker not initialized"
  | some _ =>
    let store' := markChapterComplete store t.bookId chapterIndex
    Except.ok ({ t with checkpoint := loadCheckpoint store' t.bookId }, store')

/-- `ProgressTracker.failChapter`: delegate to the manager, then reload. -/
def failChapter (t : Tracker) (store : CheckpointStore)
    (chapterIndex : Nat) : Except String (Tracker × CheckpointStore) :=
  match t.checkpoint with
  | none => Except.error "ProgressTracker not initialized"
  | some _ =>
    let store' := markChapterFailed store t.bookId chapterIndex
    Except.ok ({ t with checkpoint := loadCheckpoint store' t.bookId }, store')

/-- `ProgressTracker.isComplete`: completed count equals the total. -/
def trackerIsComplete (t : Tracker) : Bool :=
  match t.checkpoint with
  | none => false
  | some checkpoint =>
    checkpoint.completedChapters.length = t.totalChapters

/-- `ProgressTracker.finalize`: when complete, persist `completed` status
and delete the checkpoint; otherwise leave the store untouched. -/
def trackerFinalize (t : Tracker) (store : CheckpointStore) :
    CheckpointStore :=
  match t.checkpoint with
  | none => store
  | some checkpoint =>
    if trackerIsComplete t then
      let checkpoint' := { checkpoint with status := CkStatus.completed }
      let store' := saveCheckpoint store checkpoint'
      deleteCheckpoint store' t.bookId
    else store

/-! ## BookScraper.scrapeAllChapters (src: scrapers/book-scraper.ts)

The browser driver is abstracted into an environment: `fetch i` is the
outcome of `getChapterContent` for chapter `i` of the fixed book under
scrape (the extracted, validated content, or the thrown error), `sha` is
the cache digest function and `now` the capture timestamp.  The state
threads the tracker, the two stores and the in-memory
`chapterContents` map; `fetched` additionally logs every chapter index
for which the fetch-and-validate path (as opposed to the cache) was
invoked, so re-fetch claims are observable. -/

structure Chapter where
  title : String
  url : String
  index : Nat
deriving Repr, DecidableEq

structure Book where
  id : String
  title : String
  author : String
  url : String
  chapters : List Chapter

structure ScrapeEnv where
  fetch : Nat → Except String String
  sha : String → String
  now : String

structure ScrapeState where
  tracker : Tracker
  ckStore : CheckpointStore
  cache : CacheStore
  contents : Nat → Option String
  fetched : List Nat

/-- `chapterContents.set(chapterIndex, content)`. -/
def setContent (contents : Nat → Option String) (chapterIndex : Nat)
    (content : String) : Nat → Option String :=
  fun i => if i = chapterIndex then some content else contents i

/-- The `catch` block of the per-chapter loop: mark the chapter failed
and continue with the next chapter; a failure of `failChapter` itself
escapes the loop. -/
def scrapeCatch (t : Tracker) (store : CheckpointStore) (cache : CacheStore)
    (contents : Nat → Option String) (fetched : List Nat)
    (chapterIndex : Nat) : Except String ScrapeState :=
  match failChapter t store chapterIndex with
  | Except.error e => Except.error e
  | Except.ok (t2, s2) =>
    Except.ok
      { tracker := t2, ckStore := s2, cache := cache,
        contents := contents, fetched := fetched }

/-- The tail of the `try` block: record the content, mark the chapter
completed (falling into the `catch` if that throws). -/
def scrapeFinish (t : Tracker) (store : CheckpointStore) (cache : CacheStore)
    (contents : Nat → Option String) (fetched : List Nat)
    (chapterIndex : Nat) : Except String ScrapeState :=
  match completeChapter t store chapterIndex with
  | Except.error _ => scrapeCatch t store cache contents fetched chapterIndex
  | Except.ok (t2, s2) =>
    Except.ok
      { tracker := t2, ckStore := s2, cache := cache,
        contents := contents, fetched := fetched }

/-- One iteration of the `for (const chapterIndex of remainingChapters)`
loop of `scrapeAllChapters`. -/
def scrapeStep (env : ScrapeEnv) (book : Book) (st : ScrapeState)
    (chapterIndex : Nat) : Except String ScrapeState :=
  match book.chapters[chapterIndex]? with
  | none => Except.ok st
  | some chapter =>
    match startChapter st.tracker st.ckStore chapterIndex with
    | Except.error _ =>
      scrapeCatch st.tracker st.ckStore st.cache st.contents st.fetched
        chapterIndex
    | Except.ok (t1, s1) =>
      match getChapter env.sha st.cache book.id chapterIndex with
      | some cachedChapter =>
        scrapeFinish t1 s1 st.cache
          (setContent st.contents chapterIndex cachedChapter.content)
          st.fetched chapterIndex
      | none =>
        match env.fetch chapterIndex with
        | Except.error _ =>
          scrapeCatch t1 s1 st.cache st.contents
            (st.fetched ++ [chapterIndex]) chapterIndex
        | Except.ok content =>
          let cache' := saveChapter env.sha st.cache book.id
            { chapterIndex := chapterIndex, title := chapter.title,
              url := chapter.url, content := content,
              scrapedAt := "", hash := "" } env.now
          scrapeFinish t1 s1 cache'
            (setContent st.contents chapterIndex content)
            (st.fetched ++ [chapterIndex]) chapterIndex

/-- The post-loop pass of `scrapeAllChapters`: for every chapter index
not yet in the in-memory map, take the cached content when the cache has
a (digest-valid) entry. -/
def fillFromCache (sha : String → String) (cache : CacheStore)
    (bookId : String) (contents : Nat → Option String) (n : Nat) :
    Nat → Option String :=
  (List.range n).foldl
    (fun acc i =>
      match acc i with
      | some _ => acc
      | none =>
        match getChapter sha cache bookId i with
        | some cachedChapter => setContent acc i cachedChapter.content
        | none => acc)
    contents

/-- `BookScraper.scrapeAllChapters`. -/
def scrapeAllChapters (env : ScrapeEnv) (book : Book) (tracker : Tracker)
    (ckStore : CheckpointStore) (cache : CacheStore) :
    Except String ScrapeState :=
  let remainingChapters := getRemainingChapters tracker
  let st0 : ScrapeState :=
    { tracker := tracker, ckStore := ckStore, cache := cache,
      contents := fun _ => none, fetched := [] }
  match remainingChapters.foldlM (scrapeStep env book) st0 with
  | Except.error e => Except.error e
  | Except.ok st =>
    let completedChapters := book.chapters.length - remainingChapters.length
    let contents' :=
      if completedChapters > 0 then
        fillFromCache env.sha st.cache book.id st.contents
          book.chapters.length
      else st.contents
    Except.ok { st with contents := contents' }

/-! ## BookScraper.getAllChapters (src: scrapers/book-scraper.ts)

The page interactions are abstracted into an environment capturing what
each browser query would observe: the table-of-contents element found by
the selector loop (with its `.xhtml` links), the base URL extracted from
the reading-view location, the outcome of each sequential `chNN.xhtml`
probe navigation, and the next-chapter links of the fallback walk.
Observably, the function returns a plain chapter list; the source has no
error type for discovery — its `catch` returns the chapters collected so
far, and an empty result flows out as an ordinary value. -/

structure TocLink where
  href : String
  text : String

/-- The outcome of `page.goto` on a probed `chNN.xhtml` URL: `none` when
navigation threw (timeout / nonexistent), otherwise the response status
and the page title. -/
structure ProbeResult where
  status : Nat
  title : String

structure DiscoveryEnv where
  /-- The TOC element, when one of the TOC selectors matched. -/
  toc : Option (List TocLink)
  /-- The base URL extracted by the `/library/view/` regex; the source
  initializes it to the empty string and the guard tests truthiness. -/
  baseUrl : String
  /-- Sequential probe outcomes, per candidate chapter number. -/
  probe : Nat → Option ProbeResult
  /-- The page URL at the fallback check. -/
  currentUrl : String
  /-- The page title at the fallback's first push. -/
  currentTitle : String
  /-- The `next` link href present at step `i` of the fallback walk, if
  the next button exists and carries an href. -/
  next : Nat → Option String
  /-- The page title after following the `i`-th next link. -/
  nextTitle : Nat → String

/-- `String(chNum).padStart(2, '0')`. -/
def pad2 (n : Nat) : String :=
  if n < 10 then "0" ++ toString n else toString n

/-- `chNum ↦ "chNN.xhtml"`. -/
def chapterFileName (chNum : Nat) : String :=
  "ch" ++ pad2 chNum ++ ".xhtml"

/-- Absolute-URL completion used for TOC hrefs and next links. -/
def completeUrl (href : String) : String :=
  if jsStartsWith href "http" then href
  else "https://learning.oreilly.com" ++ href

/-- `title.split('|')[0]`. -/
def titleBeforePipe (title : String) : String :=
  String.mk (title.toList.takeWhile (fun c => c ≠ '|'))

/-- Parse a maximal run of leading decimal digits. -/
def takeDigits (cs : List Char) : List Char :=
  cs.takeWhile (fun c => c.isDigit)

/-- Decimal value of a digit list. -/
def digitsToNat (ds : List Char) : Nat :=
  ds.foldl (fun acc c => acc * 10 + (c.toNat - '0'.toNat)) 0

/-- First match of `/ch(\d+)\.xhtml/`: scan left to right for `"ch"`
followed by at least one digit followed by `".xhtml"`. -/
def chMatchNum : List Char → Option Nat
  | [] => none
  | c :: rest =>
    if c = 'c' ∧ ['h'].isPrefixOf rest then
      let ds := takeDigits (rest.drop 1)
      if ds ≠ [] ∧ (".xhtml".toList).isPrefixOf ((rest.drop 1).drop ds.length) then
        some (digitsToNat ds)
      else chMatchNum rest
    else chMatchNum rest

/-- The hand-tuned priority bands of the discovery re-sort comparator. -/
def getOrder (url : String) : Nat :=
  if strIncludes url "index.xhtml" then 0
  else if strIncludes url "titlepage.xhtml" then 1
  else if strIncludes url "front-en.xhtml" then 2
  else if strIncludes url "copy.xhtml" then 3
  else if strIncludes url "foreword.xhtml" then 4
  else if strIncludes url "ch00.xhtml" then 5
  else if strIncludes url "part01.xhtml" then 6
  else
    match chMatchNum url.toList with
    | some n => 10 + n
    | none =>
      if strIncludes url "part02.xhtml" then 100
      else if strIncludes url "part03.xhtml" then 200
      else if strIncludes url "author.xhtml" then 300
      else if strIncludes url "colophon.xhtml" then 301
      else 999

/-- The TOC link extraction loop: keep links whose href and text are
truthy (nonempty), completing relative hrefs; indices are assigned by
arrival order. -/
def tocChapters (links : List TocLink) : List Chapter :=
  links.foldl
    (fun chapters link =>
      if link.href ≠ "" ∧ link.text ≠ "" then
        chapters ++
          [{ title := jsTrim link.text,
             url := completeUrl link.href, index := chapters.length }]
      else chapters)
    []

/-- The sequential probe loop `for (let chNum = 0; chNum <= 30; chNum++)`:
already-known URLs are skipped; a 200 response appends a chapter; any
non-200 response or navigation failure breaks the loop.  The fuel is the
number of remaining candidate numbers (31 at the start). -/
def probeLoop (env : DiscoveryEnv) : Nat → Nat → List Chapter → List Chapter
  | 0, _, chapters => chapters
  | fuel + 1, chNum, chapters =>
    let chapterUrl := env.baseUrl ++ chapterFileName chNum
    if chapters.any (fun ch => ch.url = chapterUrl) then
      probeLoop env fuel (chNum + 1) chapters
    else
      match env.probe chNum with
      | some response =>
        if response.status = 200 then
          probeLoop env fuel (chNum + 1)
            (chapters ++
              [{ title := jsTrim (titleBeforePipe response.title),
                 url := chapterUrl, index := chapters.length }])
        else chapters
      | none => chapters

/-- The stable re-sort by priority band followed by re-indexing. -/
def sortAndReindex (chapters : List Chapter) : List Chapter :=
  let sorted := chapters.insertionSort
    (fun a b => getOrder a.url ≤ getOrder b.url)
  sorted.enum.map (fun p => { p.2 with index := p.1 })

/-- The fallback next-chapter walk (`while (hasNext && index < 1000)`).
The fuel is the remaining iteration budget. -/
def nextWalk (env : DiscoveryEnv) : Nat → Nat → List Chapter → List Chapter
  | 0, _, chapters => chapters
  | fuel + 1, index, chapters =>
    if index < 1000 then
      match env.next index with
      | some nextHref =>
        let nextUrl := completeUrl nextHref
        nextWalk env fuel (index + 1)
          (chapters ++
            [{ title := env.nextTitle index, url := nextUrl,
               index := index }])
      | none => chapters
    else chapters

/-- `BookScraper.getAllChapters`: the structural TOC pass (with the
sequential probe extension and the priority re-sort), then — only when
that produced nothing — the next-link fallback walk.  The result is the
chapter list itself; no failure value exists. -/
def getAllChapters (env : DiscoveryEnv) : List Chapter :=
  let afterToc : List Chapter :=
    match env.toc with
    | some links =>
      if env.baseUrl ≠ "" then
        sortAndReindex (probeLoop env 31 0 (tocChapters links))
      else []
    | none => []
  if afterToc.length = 0 then
    if strIncludes env.currentUrl "/chapter/" then
      nextWalk env 999 1
        [{ title := env.currentTitle, url := env.currentUrl, index := 0 }]
    else afterToc
  else afterToc

/-! ## Shared helper lemmas -/

theorem jsSortNums_perm (l : List Nat) : List.Perm (jsSortNums l) l :=
  List.perm_insertionSort _ l

theorem jsSortNums_sorted (l : List Nat) : (jsSortNums l).Sorted (· ≤ ·) :=
  List.sorted_insertionSort _ l

theorem jsSortNums_mem {l : List Nat} {x : Nat} :
    x ∈ jsSortNums l ↔ x ∈ l :=
  (jsSortNums_perm l).mem_iff

/-- Inserting a fresh element into a strictly sorted list by push-and-sort
yields a strictly sorted (hence duplicate-free) list. -/
theorem jsSortNums_insert_sorted {l : List Nat} {i : Nat}
    (hs : l.Sorted (· < ·)) (hi : i ∉ l) :
    (jsSortNums (l ++ [i])).Sorted (· < ·) := by
  have hnodup : (l ++ [i]).Nodup := by
    simp [List.nodup_append, hs.nodup, hi]
  have hnodup' : (jsSortNums (l ++ [i])).Nodup :=
    ((jsSortNums_perm (l ++ [i])).nodup_iff).mpr hnodup
  exact (jsSortNums_sorted (l ++ [i])).lt_of_le hnodup'

/-- Strictly-sorted lists are produced by `markChapterComplete`'s filter
step as well. -/
theorem sorted_filter {l : List Nat} (p : Nat → Bool)
    (hs : l.Sorted (· < ·)) : (l.filter p).Sorted (· < ·) :=
  List.Pairwise.filter p hs

/-! ## C10 -/

/-- C10: calling `markChapterComplete` or `markChapterFailed` for a book
id with no existing checkpoint leaves the store exactly as it was; the
operations are total (the source logs a warning and returns), so no
error is raised and no checkpoint is created or modified. -/
theorem markChapter_no_checkpoint_noop (store : CheckpointStore)
    (bookId : String) (chapterIndex : Nat)
    (h : loadCheckpoint store bookId = none) :
    markChapterComplete store bookId chapterIndex = store ∧
      markChapterFailed store bookId chapterIndex = store := by
  constructor
  · simp [markChapterComplete, h]
  · simp [markChapterFailed, h]

theorem markChapter_no_checkpoint_noop_witness :
    loadCheckpoint (fun _ => none) "book-9999" = none ∧
      markChapterComplete (fun _ => none) "book-9999" 0 = (fun _ => none) ∧
      markChapterFailed (fun _ => none) "book-9999" 0 = (fun _ => none) :=
  ⟨rfl,
    (markChapter_no_checkpoint_noop (fun _ => none) "book-9999" 0 rfl).1,
    (markChapter_no_checkpoint_noop (fun _ => none) "book-9999" 0 rfl).2⟩

/-! ## C5 -/

/-- C5: `saveChapter` followed by `getChapter` at the same
`(bookId, index)` returns a record carrying exactly the stored content,
and a `getChapter` read of a stored record whose digest does not equal
the hash of its content is a miss (`none`) — the function's only failure
value, never a distinct error. -/
theorem cache_roundtrip_and_integrity (sha : String → String)
    (store : CacheStore) (bookId : String) (chapter : CachedChapter)
    (now : String) :
    (getChapter sha (saveChapter sha store bookId chapter now) bookId
        chapter.chapterIndex =
      some { chapter with hash := sha chapter.content, scrapedAt := now }) ∧
    (∀ r, getChapter sha (saveChapter sha store bookId chapter now) bookId
        chapter.chapterIndex = some r → r.content = chapter.content) ∧
    (∀ idx rec, store bookId idx = some rec → sha rec.content ≠ rec.hash →
      getChapter sha store bookId idx = none) := by
  refine ⟨?_, ?_, ?_⟩
  · simp [getChapter, saveChapter]
  · intro r hr
    simp [getChapter, saveChapter] at hr
    simp [← hr]
  · intro idx rec hrec hmismatch
    simp [getChapter, hrec, hmismatch]

/-- The digest function used by the concrete cache witnesses. -/
def lenSha (s : String) : String := toString s.length

def sampleChapter : CachedChapter :=
  { chapterIndex := 2, title := "t", url := "u", content := "body",
    scrapedAt := "", hash := "" }

def corruptChapter : CachedChapter :=
  { chapterIndex := 0, title := "t", url := "u", content := "body",
    scrapedAt := "", hash := "corrupt" }

def corruptStore : CacheStore := fun _ _ => some corruptChapter

theorem cache_roundtrip_and_integrity_witness :
    (getChapter lenSha (saveChapter lenSha (fun _ _ => none) "b"
        sampleChapter "now") "b" 2 =
      some { sampleChapter with hash := "4", scrapedAt := "now" }) ∧
    getChapter lenSha corruptStore "b" 0 = none := by
  constructor
  · have h := (cache_roundtrip_and_integrity lenSha (fun _ _ => none) "b"
      sampleChapter "now").1
    simpa [lenSha, sampleChapter] using h
  · exact (cache_roundtrip_and_integrity lenSha corruptStore "b"
      sampleChapter "x").2.2 0 corruptChapter rfl (by decide)

/-! ## C9 -/

/-- C9: starting from a checkpoint whose two arrays are strictly sorted
(hence duplicate-free), both `markChapterComplete` and
`markChapterFailed` leave both arrays strictly sorted and
duplicate-free, and marking an index already present in the target array
leaves that array unchanged. -/
theorem mark_preserves_sorted_nodup (store : CheckpointStore)
    (bookId : String) (i : Nat) (c : Checkpoint)
    (h : loadCheckpoint store bookId = some c)
    (hbid : c.bookId = bookId)
    (hcs : c.completedChapters.Sorted (· < ·))
    (hfs : c.failedChapters.Sorted (· < ·)) :
    (∃ cc, loadCheckpoint (markChapterComplete store bookId i) bookId = some cc ∧
      cc.completedChapters.Sorted (· < ·) ∧ cc.completedChapters.Nodup ∧
      cc.failedChapters.Sorted (· < ·) ∧ cc.failedChapters.Nodup ∧
      (i ∈ c.completedChapters → cc.completedChapters = c.completedChapters)) ∧
    (∃ cf, loadCheckpoint (markChapterFailed store bookId i) bookId = some cf ∧
      cf.failedChapters.Sorted (· < ·) ∧ cf.failedChapters.Nodup ∧
      cf.completedChapters = c.completedChapters ∧
      (i ∈ c.failedChapters → cf.failedChapters = c.failedChapters)) := by
  have h' : store bookId = some c := h
  subst hbid
  constructor
  · by_cases hmem : i ∈ c.completedChapters
    · have hstep : loadCheckpoint (markChapterComplete store c.bookId i) c.bookId =
          some
            { c with
              completedChapters := c.completedChapters,
              failedChapters := c.failedChapters.filter (fun idx => idx ≠ i) } := by
        simp [markChapterComplete, loadCheckpoint, saveCheckpoint, h', hmem]
      exact ⟨_, hstep, hcs, hcs.nodup, sorted_filter _ hfs,
        (sorted_filter _ hfs).nodup, fun _ => rfl⟩
    · have hstep : loadCheckpoint (markChapterComplete store c.bookId i) c.bookId =
          some
            { c with
              completedChapters := jsSortNums (c.completedChapters ++ [i]),
              failedChapters := c.failedChapters.filter (fun idx => idx ≠ i) } := by
        simp [markChapterComplete, loadCheckpoint, saveCheckpoint, h', hmem]
      exact ⟨_, hstep, jsSortNums_insert_sorted hcs hmem,
        (jsSortNums_insert_sorted hcs hmem).nodup, sorted_filter _ hfs,
        (sorted_filter _ hfs).nodup, fun hmem' => absurd hmem' hmem⟩
  · by_cases hmem : i ∈ c.failedChapters
    · have hstep : loadCheckpoint (markChapterFailed store c.bookId i) c.bookId =
          some c := by
        simp [markChapterFailed, loadCheckpoint, saveCheckpoint, h', hmem]
      exact ⟨_, hstep, hfs, hfs.nodup, rfl, fun _ => rfl⟩
    · have hstep : loadCheckpoint (markChapterFailed store c.bookId i) c.bookId =
          some
            { c with
              failedChapters := jsSortNums (c.failedChapters ++ [i]) } := by
        simp [markChapterFailed, loadCheckpoint, saveCheckpoint, h', hmem]
      exact ⟨_, hstep, jsSortNums_insert_sorted hfs hmem,
        (jsSortNums_insert_sorted hfs hmem).nodup, rfl,
        fun hmem' => absurd hmem' hmem⟩

def c9Checkpoint : Checkpoint :=
  { bookId := "bk", bookUrl := "u", totalChapters := 5,
    completedChapters := [0, 2], failedChapters := [1],
    currentChapter := none, status := CkStatus.in_progress }

def c9Store : CheckpointStore :=
  fun id => if id = "bk" then some c9Checkpoint else none

theorem mark_preserves_sorted_nodup_witness :
    (∃ cc, loadCheckpoint (markChapterComplete c9Store "bk" 1) "bk" = some cc ∧
      cc.completedChapters.Sorted (· < ·) ∧ cc.completedChapters.Nodup ∧
      cc.failedChapters.Sorted (· < ·) ∧ cc.failedChapters.Nodup ∧
      (1 ∈ c9Checkpoint.completedChapters →
        cc.completedChapters = c9Checkpoint.completedChapters)) ∧
    (∃ cf, loadCheckpoint (markChapterFailed c9Store "bk" 1) "bk" = some cf ∧
      cf.failedChapters.Sorted (· < ·) ∧ cf.failedChapters.Nodup ∧
      cf.completedChapters = c9Checkpoint.completedChapters ∧
      (1 ∈ c9Checkpoint.failedChapters →
        cf.failedChapters = c9Checkpoint.failedChapters)) :=
  mark_preserves_sorted_nodup c9Store "bk" 1 c9Checkpoint (by decide) rfl
    (by decide) (by decide)

/-! ## C3 -/

/-- An all-whitespace trim result means the whole string is whitespace. -/
theorem trim_empty_all_ws {s : String} (h : (jsTrim s).length = 0) :
    ∀ c ∈ s.toList, jsWhitespace c = true := by
  intro c hc
  have h2 : ((s.toList.dropWhile (fun c => jsWhitespace c)).reverse.dropWhile
      (fun c => jsWhitespace c)) = [] := by
    have h0 := h
    simp only [jsTrim, String.length_mk, List.length_reverse] at h0
    exact List.eq_nil_of_length_eq_zero h0
  have h1 : ∀ x ∈ s.toList.dropWhile (fun c => jsWhitespace c),
      jsWhitespace x = true := by
    intro x hx
    exact List.dropWhile_eq_nil_iff.mp h2 x (List.mem_reverse.mpr hx)
  rcases List.mem_append.mp
      (by simpa [List.takeWhile_append_dropWhile] using hc :
        c ∈ s.toList.takeWhile (fun c => jsWhitespace c) ++
          s.toList.dropWhile (fun c => jsWhitespace c)) with htake | hdrop
  · exact List.mem_takeWhile_imp htake
  · exact h1 c hdrop

/-- Tag stripping is the identity on `'<'`-free text. -/
theorem stripTagsFuel_no_lt : ∀ (fuel : Nat) (cs : List Char),
    (∀ c ∈ cs, c ≠ '<') → stripTagsFuel fuel cs = cs
  | 0, cs, _ => rfl
  | _ + 1, [], _ => rfl
  | fuel + 1, c :: rest, h => by
    have hc : c ≠ '<' := h c (List.mem_cons_self c rest)
    simp only [stripTagsFuel, if_neg hc]
    rw [stripTagsFuel_no_lt fuel rest (fun x hx => h x (List.mem_cons_of_mem c hx))]

/-- Splitting a list every element of which is a separator yields only
empty chunks. -/
theorem splitOnP_all_sep {p : Char → Bool} : ∀ (l : List Char),
    (∀ c ∈ l, p c = true) → ∀ w ∈ l.splitOnP p, w = []
  | [], _, w, hw => by
    simpa [List.splitOnP_nil] using hw
  | a :: l, h, w, hw => by
    have ha : p a = true := h a (List.mem_cons_self a l)
    rw [List.splitOnP_cons, if_pos ha] at hw
    rcases List.mem_cons.mp hw with rfl | hw'
    · rfl
    · exact splitOnP_all_sep l (fun c hc => h c (List.mem_cons_of_mem a hc)) w hw'

/-- A string whose trim is empty has no countable words. -/
theorem contentWords_nil_of_trim_empty {content : String}
    (h : (jsTrim content).length = 0) : contentWords content = [] := by
  have hws := trim_empty_all_ws h
  have hlt : ∀ c ∈ content.toList, c ≠ '<' := by
    intro c hc
    have := hws c hc
    revert this
    simp only [jsWhitespace]
    intro hor
    rcases Bool.or_eq_true_iff.mp hor with hor1 | h4
    · rcases Bool.or_eq_true_iff.mp hor1 with hor2 | h3
      · rcases Bool.or_eq_true_iff.mp hor2 with h1 | h2
        · simp at h1; simp [h1]
        · simp at h2; simp [h2]
      · simp at h3; simp [h3]
    · simp at h4; simp [h4]
  have hstrip : stripTags content.toList = content.toList :=
    stripTagsFuel_no_lt _ _ hlt
  have hchunks := splitOnP_all_sep (p := jsWhitespace) content.toList hws
  have hfil : (List.splitOnP jsWhitespace content.toList).filter
      (fun w => w.length > 0) = [] := by
    rw [List.filter_eq_nil_iff]
    intro a ha
    simp [hchunks a ha]
  simp only [contentWords, hstrip, hfil, List.filter_nil]

/-- C3: the word-count rules of `validateChapter`.  The suspicious-word-
count fatal error fires exactly when the (tag-stripped, whitespace-
tokenized, length->1) word count is below 50; the low-word warning fires
exactly below 100; validity is exactly the absence of fatal errors
(warnings never affect it); hence a count below 50 invalidates, and a
count of exactly 50 on content not hitting the error-page/anti-bot rules
is valid with exactly the low-word warning. -/
theorem validateChapter_word_count_rules (content title : String) :
    ("Word count is suspiciously low (< 50 words)" ∈
        (validateChapter content title).errors ↔
      (getContentStats content).wordCount < 50) ∧
    ("Content has fewer than 100 words" ∈
        (validateChapter content title).warnings ↔
      (getContentStats content).wordCount < 100) ∧
    ((validateChapter content title).isValid = true ↔
      (validateChapter content title).errors = []) ∧
    ((getContentStats content).wordCount < 50 →
      (validateChapter content title).isValid = false) ∧
    ((getContentStats content).wordCount = 50 →
      isErrorPage content = false → isAntiBotPage content = false →
      (validateChapter content title).isValid = true ∧
      (validateChapter content title).warnings =
        ["Content has fewer than 100 words"]) := by
  refine ⟨?_, ?_, ?_, ?_, ?_⟩
  · by_cases hw : (getContentStats content).wordCount < 50 <;>
      simp [validateChapter, hw]
  · by_cases hw : (getContentStats content).wordCount < 100 <;>
      simp [validateChapter, hasMinimumContent, hw, Nat.not_lt]
  · simp [validateChapter, List.isEmpty_iff]
  · intro hw
    simp [validateChapter, hw]
  · intro hw he ha
    have hne : ¬ (jsTrim content).length = 0 := by
      intro h0
      have := contentWords_nil_of_trim_empty h0
      simp [getContentStats, this] at hw
    constructor
    · simp [validateChapter, hne, he, ha, hw]
    · simp [validateChapter, hasMinimumContent, hw]

/-- Fifty two-character tokens separated by single spaces. -/
def tokens50 : String := String.intercalate " " (List.replicate 50 "ab")

/-- Forty-nine two-character tokens. -/
def tokens49 : String := String.intercalate " " (List.replicate 49 "ab")

set_option maxRecDepth 40000 in
theorem validateChapter_word_count_rules_witness :
    (validateChapter tokens50 "t").isValid = true ∧
    (validateChapter tokens50 "t").warnings =
      ["Content has fewer than 100 words"] ∧
    (validateChapter tokens49 "t").isValid = false := by
  have h50 := (validateChapter_word_count_rules tokens50 "t").2.2.2.2
    (by decide) (by decide) (by decide)
  have h49 := (validateChapter_word_count_rules tokens49 "t").2.2.2.1
    (by decide)
  exact ⟨h50.1, h50.2, h49⟩

/-! ## C6 -/

/-- Bounds on the rounded, pre-cap backoff value: for an integer base
`b ≥ 1` it stays inside `[800·bᵃ, 1200·bᵃ]` milliseconds. -/
theorem jsRound_backoff_bounds (a : Nat) (b : Nat) (hb : 1 ≤ b) (r : ℚ)
    (hr0 : 0 ≤ r) (hr1 : r < 1) :
    800 * (b : ℤ) ^ a ≤
        jsRound ((b : ℚ) ^ a * 1000 * (1 + (r * 2 - 1) * (1 / 5))) ∧
    jsRound ((b : ℚ) ^ a * 1000 * (1 + (r * 2 - 1) * (1 / 5))) ≤
      1200 * (b : ℤ) ^ a := by
  have hb1 : (1 : ℚ) ≤ (b : ℚ) := by exact_mod_cast hb
  have hM1 : (1 : ℚ) ≤ (b : ℚ) ^ a := one_le_pow₀ hb1
  have hM : (0 : ℚ) < (b : ℚ) ^ a * 1000 := by nlinarith
  have hf0 : 4 / 5 ≤ 1 + (r * 2 - 1) * (1 / 5) := by linarith
  have hf1 : 1 + (r * 2 - 1) * (1 / 5) < 6 / 5 := by linarith
  constructor
  · rw [jsRound]
    refine Int.le_floor.mpr ?_
    push_cast
    nlinarith
  · rw [jsRound]
    have hlt : Int.floor ((b : ℚ) ^ a * 1000 * (1 + (r * 2 - 1) * (1 / 5)) + 1 / 2) <
        1200 * (b : ℤ) ^ a + 1 := by
      refine Int.floor_lt.mpr ?_
      push_cast
      nlinarith
    omega

/-- C6, amended: the delay equals `min(60000 ms, bᵃ·1000 ms·j)` for some
jitter factor `j ∈ [0.8, 1.2]` (an integer base; rounding to whole
milliseconds can land `j` on either closed endpoint); for base 2 the
delay at attempt 0 lies in the closed interval `[800, 1200]` ms and at
attempt 1 in `[1600, 2400]` ms, and from attempt 7 on the 60 s cap is
always hit. -/
theorem getBackoffDelay_min_jitter (a : Nat) (b : Nat) (hb : 1 ≤ b)
    (r : ℚ) (hr0 : 0 ≤ r) (hr1 : r < 1) :
    (∃ j : ℚ, 4 / 5 ≤ j ∧ j ≤ 6 / 5 ∧
      ((getBackoffDelay a (b : ℚ) r : ℤ) : ℚ) =
        min 60000 ((b : ℚ) ^ a * 1000 * j)) ∧
    (800 ≤ getBackoffDelay 0 2 r ∧ getBackoffDelay 0 2 r ≤ 1200) ∧
    (1600 ≤ getBackoffDelay 1 2 r ∧ getBackoffDelay 1 2 r ≤ 2400) ∧
    (∀ a', 7 ≤ a' → getBackoffDelay a' 2 r = 60000) := by
  have hb1 : (1 : ℚ) ≤ (b : ℚ) := by exact_mod_cast hb
  have hM1 : (1 : ℚ) ≤ (b : ℚ) ^ a := one_le_pow₀ hb1
  have hM : (0 : ℚ) < (b : ℚ) ^ a * 1000 := by nlinarith
  obtain ⟨hlow, hup⟩ := jsRound_backoff_bounds a b hb r hr0 hr1
  have hlowq : ((800 * (b : ℤ) ^ a : ℤ) : ℚ) ≤
      ((jsRound ((b : ℚ) ^ a * 1000 * (1 + (r * 2 - 1) * (1 / 5))) : ℤ) : ℚ) := by
    exact_mod_cast hlow
  have hupq : ((jsRound ((b : ℚ) ^ a * 1000 * (1 + (r * 2 - 1) * (1 / 5))) : ℤ) : ℚ) ≤
      ((1200 * (b : ℤ) ^ a : ℤ) : ℚ) := by exact_mod_cast hup
  refine ⟨?_, ?_, ?_, ?_⟩
  · set d0 : ℤ := jsRound ((b : ℚ) ^ a * 1000 * (1 + (r * 2 - 1) * (1 / 5))) with hd0
    have hdelay : getBackoffDelay a (b : ℚ) r = min d0 60000 := rfl
    by_cases hcap : d0 ≤ 60000
    · refine ⟨(d0 : ℚ) / ((b : ℚ) ^ a * 1000), ?_, ?_, ?_⟩
      · rw [le_div_iff₀ hM]
        push_cast at hlowq ⊢
        nlinarith
      · rw [div_le_iff₀ hM]
        push_cast at hupq ⊢
        nlinarith
      · have hmul : (b : ℚ) ^ a * 1000 * ((d0 : ℚ) / ((b : ℚ) ^ a * 1000)) = (d0 : ℚ) := by
          field_simp
        rw [hdelay, min_eq_left hcap, hmul, min_eq_right]
        exact_mod_cast hcap
    · push_neg at hcap
      have hmin : min d0 60000 = 60000 := min_eq_right hcap.le
      have hcapq : (60000 : ℚ) < (d0 : ℚ) := by exact_mod_cast hcap
      have h65 : (60000 : ℚ) < 6 / 5 * ((b : ℚ) ^ a * 1000) := by
        push_cast at hupq
        nlinarith
      by_cases h45 : 60000 ≤ 4 / 5 * ((b : ℚ) ^ a * 1000)
      · refine ⟨4 / 5, le_refl _, by norm_num, ?_⟩
        rw [hdelay, hmin, min_eq_left]
        · push_cast
          norm_num
        · nlinarith
      · push_neg at h45
        refine ⟨60000 / ((b : ℚ) ^ a * 1000), ?_, ?_, ?_⟩
        · rw [le_div_iff₀ hM]
          nlinarith
        · rw [div_le_iff₀ hM]
          nlinarith
        · have hmul : (b : ℚ) ^ a * 1000 * (60000 / ((b : ℚ) ^ a * 1000)) = 60000 := by
            field_simp
          rw [hdelay, hmin, hmul, min_self]
          push_cast
          norm_num
  · obtain ⟨l0, u0⟩ := jsRound_backoff_bounds 0 2 (by norm_num) r hr0 hr1
    constructor
    · simp only [getBackoffDelay]
      norm_num at l0 u0 ⊢
      omega
    · simp only [getBackoffDelay]
      norm_num at l0 u0 ⊢
      omega
  · obtain ⟨l1, u1⟩ := jsRound_backoff_bounds 1 2 (by norm_num) r hr0 hr1
    constructor
    · simp only [getBackoffDelay]
      norm_num at l1 u1 ⊢
      omega
    · simp only [getBackoffDelay]
      norm_num at l1 u1 ⊢
      omega
  · intro a' ha'
    obtain ⟨la, ua⟩ := jsRound_backoff_bounds a' 2 (by norm_num) r hr0 hr1
    have hpow : (128 : ℤ) ≤ 2 ^ a' := by
      calc (128 : ℤ) = 2 ^ 7 := by norm_num
      _ ≤ 2 ^ a' := pow_le_pow_right₀ (by norm_num) ha'
    simp only [getBackoffDelay]
    norm_num at la ua ⊢
    omega

theorem getBackoffDelay_min_jitter_witness :
    (∃ j : ℚ, 4 / 5 ≤ j ∧ j ≤ 6 / 5 ∧
      ((getBackoffDelay 3 ((2 : ℕ) : ℚ) (1 / 2) : ℤ) : ℚ) =
        min 60000 (((2 : ℕ) : ℚ) ^ 3 * 1000 * j)) ∧
    (800 ≤ getBackoffDelay 0 2 (1 / 2) ∧ getBackoffDelay 0 2 (1 / 2) ≤ 1200) ∧
    (1600 ≤ getBackoffDelay 1 2 (1 / 2) ∧ getBackoffDelay 1 2 (1 / 2) ≤ 2400) ∧
    (∀ a', 7 ≤ a' → getBackoffDelay a' 2 (1 / 2) = 60000) :=
  getBackoffDelay_min_jitter 3 2 (by norm_num) (1 / 2) (by norm_num) (by norm_num)

/-- C6, counterexample to the claim as stated: at attempt 1 with base 2
the rounded delay can be exactly 2400 ms, which lies outside the claimed
half-open interval `[1.6 s, 2.4 s)`. -/
theorem getBackoffDelay_attempt1_hits_2400 :
    (0 : ℚ) ≤ 1999 / 2000 ∧ (1999 : ℚ) / 2000 < 1 ∧
    getBackoffDelay 1 2 (1999 / 2000) = 2400 ∧
    ¬ getBackoffDelay 1 2 (1999 / 2000) < 2400 := by
  refine ⟨by norm_num, by norm_num, ?_, ?_⟩
  · norm_num [getBackoffDelay, jsRound]
  · norm_num [getBackoffDelay, jsRound]

/-! ## C7 -/

/-- A source on which no TOC selector matches and whose location carries
no `/chapter/` segment: both discovery passes come up empty. -/
def noDiscoveryEnv : DiscoveryEnv :=
  { toc := none
    baseUrl := ""
    probe := fun _ => none
    currentUrl := "https://learning.oreilly.com/library/view/x/9999/"
    currentTitle := "Some Book"
    next := fun _ => none
    nextTitle := fun _ => "" }

/-- C7, counterexample to the claim as stated: when neither pass locates
a chapter, `getAllChapters` returns the empty list as its ordinary
result — there is no `DiscoveryError` in the source, so an empty
discovery is precisely an "empty result returned as a success". -/
theorem getAllChapters_empty_success : getAllChapters noDiscoveryEnv = [] := by
  decide

/-- C7, amended: on any source where the TOC pass is not engaged (no TOC
element, or no extractable base URL) and the fallback pass is not
engaged (the current location has no `/chapter/` segment), discovery
completes normally with the empty chapter list; the function has no
error outcome at all. -/
theorem getAllChapters_empty_when_unengaged (env : DiscoveryEnv)
    (htoc : env.toc = none ∨ env.baseUrl = "")
    (hurl : strIncludes env.currentUrl "/chapter/" = false) :
    getAllChapters env = [] := by
  unfold getAllChapters
  rcases htoc with h | h
  · simp [h, hurl]
  · cases henv : env.toc with
    | none => simp [henv, hurl]
    | some links => simp [henv, h, hurl]

def emptyTocEnv : DiscoveryEnv :=
  { noDiscoveryEnv with toc := some [], baseUrl := "" }

theorem getAllChapters_empty_when_unengaged_witness :
    getAllChapters emptyTocEnv = [] :=
  getAllChapters_empty_when_unengaged emptyTocEnv (Or.inr rfl) (by decide)

/-! ## C4 -/

/-- A Node.js DNS resolution failure as thrown by the network stack. -/
def dnsError : JsError :=
  { name := "Error", message := "getaddrinfo ENOTFOUND example.com" }

set_option maxRecDepth 8000 in
/-- C4, counterexample to the claim as stated: a DNS failure is
network-class (retryable) under the spec's classifier wording, but
`isRetryableError` has no pattern for it and returns `false`. -/
theorem isRetryableError_misses_dns :
    specRetryable dnsError = true ∧ isRetryableError dnsError = false := by
  constructor
  · decide
  · decide

set_option maxRecDepth 2000 in
/-- C4, amended: `isRetryableError` returns `true` exactly for errors
whose lower-cased name mentions `networkerror` or `timeouterror`, whose
lower-cased message mentions one of `network`, `econnreset`,
`econnrefused`, `etimedout`, `socket hang up`, `timeout` or
`navigation`, or whose (truthy) HTTP status is 429 or 5xx except 501 —
DNS failures match none of these; and `withRetry` rethrows the error
immediately, performing no backoff sleep, whenever the classifier
rejects it or the failing attempt was the last one. -/
theorem isRetryableError_characterization_and_immediate_rethrow :
    (∀ e : JsError, isRetryableError e = true ↔
      (strIncludes (jsToLower e.name) "networkerror" = true ∨
       strIncludes (jsToLower e.message) "network" = true ∨
       strIncludes (jsToLower e.message) "econnreset" = true ∨
       strIncludes (jsToLower e.message) "econnrefused" = true ∨
       strIncludes (jsToLower e.message) "etimedout" = true ∨
       strIncludes (jsToLower e.message) "socket hang up" = true ∨
       strIncludes (jsToLower e.name) "timeouterror" = true ∨
       strIncludes (jsToLower e.message) "timeout" = true ∨
       (∃ sc, effectiveStatus e = some sc ∧ sc ≠ 0 ∧
         (sc = 429 ∨ (500 ≤ sc ∧ sc < 600 ∧ sc ≠ 501))) ∨
       strIncludes (jsToLower e.message) "navigation" = true)) ∧
    (∀ (T : Type) (fn : Nat → Except JsError T) (sr : JsError → Bool)
       (d : Nat → ℤ) (attempt remaining : Nat) (e : JsError),
      fn attempt = Except.error e → 1 ≤ remaining →
      (sr e = false ∨ remaining = 1) →
      withRetryGo fn sr d attempt remaining = (Except.error e, [])) := by
  constructor
  · intro e
    simp only [isRetryableError]
    split_ifs with h1 h2 h3 h4 h5
    · simp only [Bool.or_eq_true] at h1
      constructor
      · intro _
        tauto
      · intro _
        rfl
    · simp only [Bool.or_eq_true] at h2
      constructor
      · intro _
        tauto
      · intro _
        rfl
    · constructor
      · intro _
        cases hes : effectiveStatus e with
        | none => rw [hes] at h3; simp at h3
        | some sc =>
          rw [hes] at h3
          simp only [Bool.and_eq_true, Bool.or_eq_true, beq_iff_eq,
            decide_eq_true_eq, ne_eq, Bool.not_eq_true] at h3
          refine Or.inr (Or.inr (Or.inr (Or.inr (Or.inr (Or.inr (Or.inr
            (Or.inr (Or.inl ⟨sc, rfl, ?_, ?_⟩))))))))
          · simpa using h3.1
          · rcases h3.2 with h429 | ⟨⟨ha, hb⟩, hc⟩
            · exact Or.inl h429
            · exact Or.inr ⟨ha, hb, hc⟩
      · intro _
        rfl
    · simp only [Bool.and_eq_true] at h4
      constructor
      · intro _
        exact Or.inr (Or.inr (Or.inr (Or.inr (Or.inr (Or.inr (Or.inr
          (Or.inl h4.2)))))))
      · intro _
        rfl
    · constructor
      · intro _
        tauto
      · intro _
        rfl
    · constructor
      · intro hfalse
        exact absurd hfalse (by simp)
      · intro hor
        exfalso
        simp only [Bool.or_eq_true, not_or] at h1 h2
        rcases hor with h | h | h | h | h | h | h | h | h | h
        · tauto
        · tauto
        · tauto
        · tauto
        · tauto
        · tauto
        · tauto
        · tauto
        · rcases h with ⟨sc, hes, hsc0, hrest⟩
          apply h3
          rw [hes]
          simp only [Bool.and_eq_true, Bool.or_eq_true, beq_iff_eq,
            decide_eq_true_eq, ne_eq, Bool.not_eq_true]
          refine ⟨by simpa using hsc0, ?_⟩
          rcases hrest with h429 | ⟨ha, hb, hc⟩
          · exact Or.inl h429
          · exact Or.inr (by simp [ha, hb, hc])
        · apply h5
          simpa using h
  · intro T fn sr d attempt remaining e hfn hrem hcond
    cases remaining with
    | zero => omega
    | succ rem =>
      have hguard : (¬ sr e = true ∨ rem = 0) := by
        rcases hcond with h | h
        · exact Or.inl (by simp [h])
        · exact Or.inr (by omega)
      simp only [withRetryGo, hfn]
      rw [if_pos hguard]

/-- A per-chapter validation failure — not retryable by the executor. -/
def valError : JsError :=
  { name := "Error", message := "Content validation failed: too short" }

set_option maxRecDepth 8000 in
theorem isRetryableError_characterization_witness :
    withRetryGo (fun _ => (Except.error valError : Except JsError Nat))
      isRetryableError (fun _ => 0) 0 3 = (Except.error valError, []) :=
  isRetryableError_characterization_and_immediate_rethrow.2 Nat
    (fun _ => Except.error valError) isRetryableError (fun _ => 0) 0 3
    valError rfl (by norm_num) (Or.inl (by decide))

/-! ## C1 -/

/-- A chapter state transition as issued against the checkpoint store. -/
inductive MarkOp where
  | complete (i : Nat)
  | fail (i : Nat)
deriving Repr, DecidableEq

def applyMark (store : CheckpointStore) (bookId : String) :
    MarkOp → CheckpointStore
  | MarkOp.complete i => markChapterComplete store bookId i
  | MarkOp.fail i => markChapterFailed store bookId i

def runMarks (store : CheckpointStore) (bookId : String)
    (ops : List MarkOp) : CheckpointStore :=
  ops.foldl (fun s op => applyMark s bookId op) store

/-- The guard of the call discipline: a `fail i` is admissible only
while `i` is not in the completed set of the current checkpoint. -/
def markGuard (store : CheckpointStore) (bookId : String) : MarkOp → Bool
  | MarkOp.complete _ => true
  | MarkOp.fail i =>
    match loadCheckpoint store bookId with
    | none => true
    | some c => ! (c.completedChapters.contains i)

/-- The call discipline of the orchestrator's per-chapter loop: a
chapter is marked failed only while it is not in the completed set. -/
def disciplinedB (store : CheckpointStore) (bookId : String) :
    List MarkOp → Bool
  | [] => true
  | op :: rest =>
    markGuard store bookId op &&
    disciplinedB (applyMark store bookId op) bookId rest

/-- The store after `createCheckpoint`, `markChapterComplete 0`,
`markChapterFailed 0` — an undisciplined sequence. -/
def c1Store : CheckpointStore :=
  markChapterFailed
    (markChapterComplete
      ((createCheckpoint (fun _ => none) "book" "url" 3).2) "book" 0)
    "book" 0

/-- C1, counterexample to the claim as stated: `markChapterFailed` does
not consult the completed set, so marking an already-completed chapter
failed puts the index in both sets at once — the state reached below has
`completed = [0]` and `failed = [0]`, violating disjointness, and the
completed index 0 has been placed in the failed set by a subsequent
operation. -/
theorem markChapterFailed_violates_disjointness :
    loadCheckpoint c1Store "book" =
      some
        { bookId := "book", bookUrl := "url", totalChapters := 3,
          completedChapters := [0], failedChapters := [0],
          currentChapter := none, status := CkStatus.in_progress } := by
  decide

/-- What `markChapterComplete` does to the loaded checkpoint. -/
theorem markChapterComplete_load {store : CheckpointStore}
    {bookId : String} {c : Checkpoint} (i : Nat)
    (h : loadCheckpoint store bookId = some c) (hb : c.bookId = bookId) :
    loadCheckpoint (markChapterComplete store bookId i) bookId =
      some
        { c with
          completedChapters :=
            if i ∈ c.completedChapters then c.completedChapters
            else jsSortNums (c.completedChapters ++ [i]),
          failedChapters := c.failedChapters.filter (fun idx => idx ≠ i) } := by
  have h' : store bookId = some c := h
  subst hb
  by_cases hmem : i ∈ c.completedChapters <;>
    simp [markChapterComplete, loadCheckpoint, saveCheckpoint, h', hmem]

/-- What `markChapterFailed` does to the loaded checkpoint. -/
theorem markChapterFailed_load {store : CheckpointStore}
    {bookId : String} {c : Checkpoint} (i : Nat)
    (h : loadCheckpoint store bookId = some c) (hb : c.bookId = bookId) :
    loadCheckpoint (markChapterFailed store bookId i) bookId =
      some
        { c with
          failedChapters :=
            if i ∈ c.failedChapters then c.failedChapters
            else jsSortNums (c.failedChapters ++ [i]) } := by
  have h' : store bookId = some c := h
  subst hb
  by_cases hmem : i ∈ c.failedChapters <;>
    simp [markChapterFailed, loadCheckpoint, saveCheckpoint, h', hmem]

theorem mem_markInsert {l : List Nat} {i x : Nat} :
    x ∈ (if i ∈ l then l else jsSortNums (l ++ [i])) ↔ x ∈ l ∨ x = i := by
  by_cases h : i ∈ l
  · rw [if_pos h]
    constructor
    · exact fun hx => Or.inl hx
    · rintro (hx | rfl)
      · exact hx
      · exact h
  · rw [if_neg h, jsSortNums_mem]
    simp

/-- C1, amended: provided `markChapterFailed` is only ever invoked on an
index outside the current completed set (which is how the scraping loop
drives it — it only processes indices from `getRemainingChapters`),
every reachable checkpoint keeps `completed` and `failed` disjoint, and
an index once in `completed` stays there and never enters `failed`;
without that discipline `markChapterFailed` can break both properties. -/
theorem mark_discipline_invariant :
    ∀ (ops : List MarkOp) (store : CheckpointStore) (bookId : String)
      (c : Checkpoint),
    loadCheckpoint store bookId = some c → c.bookId = bookId →
    (∀ x ∈ c.completedChapters, x ∉ c.failedChapters) →
    disciplinedB store bookId ops = true →
    ∃ c', loadCheckpoint (runMarks store bookId ops) bookId = some c' ∧
      c'.bookId = bookId ∧
      (∀ x ∈ c'.completedChapters, x ∉ c'.failedChapters) ∧
      (∀ x ∈ c.completedChapters,
        x ∈ c'.completedChapters ∧ x ∉ c'.failedChapters) := by
  intro ops
  induction ops with
  | nil =>
    intro store bookId c h hb hdisj _
    exact ⟨c, h, hb, hdisj, fun x hx => ⟨hx, hdisj x hx⟩⟩
  | cons op rest ih =>
    intro store bookId c h hb hdisj hdiscip
    rw [disciplinedB, Bool.and_eq_true] at hdiscip
    obtain ⟨hguard, hrest⟩ := hdiscip
    have hrun : runMarks store bookId (op :: rest) =
        runMarks (applyMark store bookId op) bookId rest := rfl
    cases op with
    | complete i =>
      have hload := markChapterComplete_load i h hb
      have hdisj1 : ∀ x ∈ (if i ∈ c.completedChapters then c.completedChapters
          else jsSortNums (c.completedChapters ++ [i])),
          x ∉ c.failedChapters.filter (fun idx => idx ≠ i) := by
        intro x hx hxf
        rw [List.mem_filter] at hxf
        rcases mem_markInsert.mp hx with hxc | rfl
        · exact hdisj x hxc hxf.1
        · simp at hxf
      obtain ⟨c', h1, h2, h3, h4⟩ := ih (applyMark store bookId (MarkOp.complete i))
        bookId _ hload hb hdisj1 hrest
      refine ⟨c', by rwa [hrun], h2, h3, ?_⟩
      intro x hx
      exact h4 x (mem_markInsert.mpr (Or.inl hx))
    | fail i =>
      have hguard' : i ∉ c.completedChapters := by
        have h' : store bookId = some c := h
        simp only [markGuard, loadCheckpoint, h'] at hguard
        simpa using hguard
      have hload := markChapterFailed_load i h hb
      have hdisj1 : ∀ x ∈ c.completedChapters,
          x ∉ (if i ∈ c.failedChapters then c.failedChapters
            else jsSortNums (c.failedChapters ++ [i])) := by
        intro x hx hxf
        rcases mem_markInsert.mp hxf with hxc | rfl
        · exact hdisj x hx hxc
        · exact hguard' hx
      obtain ⟨c', h1, h2, h3, h4⟩ := ih (applyMark store bookId (MarkOp.fail i))
        bookId _ hload hb hdisj1 hrest
      refine ⟨c', by rwa [hrun], h2, h3, ?_⟩
      intro x hx
      exact h4 x hx

theorem mark_discipline_invariant_witness :
    ∃ c', loadCheckpoint
        (runMarks ((createCheckpoint (fun _ => none) "book" "url" 3).2) "book"
          [MarkOp.complete 0, MarkOp.fail 1, MarkOp.complete 1]) "book" =
        some c' ∧
      c'.bookId = "book" ∧
      (∀ x ∈ c'.completedChapters, x ∉ c'.failedChapters) ∧
      (∀ x ∈ ((createCheckpoint (fun _ => none) "book" "url" 3).1).completedChapters,
        x ∈ c'.completedChapters ∧ x ∉ c'.failedChapters) :=
  mark_discipline_invariant [MarkOp.complete 0, MarkOp.fail 1, MarkOp.complete 1]
    ((createCheckpoint (fun _ => none) "book" "url" 3).2) "book"
    (createCheckpoint (fun _ => none) "book" "url" 3).1
    (by decide) (by decide) (by decide) (by decide)

/-! ## C2 -/

theorem scrapeCatch_fetched {t : Tracker} {store : CheckpointStore}
    {cache : CacheStore} {contents : Nat → Option String}
    {fetched : List Nat} {chapterIndex : Nat} {st' : ScrapeState}
    (h : scrapeCatch t store cache contents fetched chapterIndex =
      Except.ok st') : st'.fetched = fetched := by
  unfold scrapeCatch at h
  split at h
  · exact absurd h (by simp)
  · cases h
    rfl

theorem scrapeFinish_fetched {t : Tracker} {store : CheckpointStore}
    {cache : CacheStore} {contents : Nat → Option String}
    {fetched : List Nat} {chapterIndex : Nat} {st' : ScrapeState}
    (h : scrapeFinish t store cache contents fetched chapterIndex =
      Except.ok st') : st'.fetched = fetched := by
  unfold scrapeFinish at h
  split at h
  · exact scrapeCatch_fetched h
  · cases h
    rfl

/-- One loop iteration can add at most its own chapter index to the
fetch log. -/
theorem scrapeStep_fetched {env : ScrapeEnv} {book : Book}
    {st : ScrapeState} {chapterIndex : Nat} {st' : ScrapeState}
    (h : scrapeStep env book st chapterIndex = Except.ok st') :
    ∀ i ∈ st'.fetched, i ∈ st.fetched ∨ i = chapterIndex := by
  unfold scrapeStep at h
  split at h
  · cases h
    exact fun i hi => Or.inl hi
  · split at h
    · have := scrapeCatch_fetched h
      rw [this]
      exact fun i hi => Or.inl hi
    · split at h
      · have := scrapeFinish_fetched h
        rw [this]
        exact fun i hi => Or.inl hi
      · split at h
        · have := scrapeCatch_fetched h
          rw [this]
          intro i hi
          rcases List.mem_append.mp hi with hi | hi
          · exact Or.inl hi
          · exact Or.inr (by simpa using hi)
        · have := scrapeFinish_fetched h
          rw [this]
          intro i hi
          rcases List.mem_append.mp hi with hi | hi
          · exact Or.inl hi
          · exact Or.inr (by simpa using hi)

/-- Folding the loop over a list of indices only logs fetches of indices
from that list (beyond those already logged). -/
theorem foldlM_scrapeStep_fetched {env : ScrapeEnv} {book : Book} :
    ∀ (l : List Nat) (st st' : ScrapeState),
    List.foldlM (scrapeStep env book) st l = Except.ok st' →
    ∀ i ∈ st'.fetched, i ∈ st.fetched ∨ i ∈ l
  | [], st, st', h => by
    simp only [List.foldlM_nil] at h
    cases h
    exact fun i hi => Or.inl hi
  | a :: l, st, st', h => by
    rw [List.foldlM_cons] at h
    cases hstep : scrapeStep env book st a with
    | error e =>
      rw [hstep] at h
      exact absurd h (by simp [Bind.bind, Except.bind])
    | ok st1 =>
      rw [hstep] at h
      have h1 : List.foldlM (scrapeStep env book) st1 l = Except.ok st' := by
        simpa [Bind.bind, Except.bind] using h
      intro i hi
      rcases foldlM_scrapeStep_fetched l st1 st' h1 i hi with hi1 | hi1
      · rcases scrapeStep_fetched hstep i hi1 with hi2 | hi2
        · exact Or.inl hi2
        · exact Or.inr (by simp [hi2])
      · exact Or.inr (List.mem_cons_of_mem a hi1)

/-- C2: `getRemainingChapters` returns exactly the indices below the
chapter total that are missing from the completed set, in strictly
increasing order, and a successful `scrapeAllChapters` run invokes the
fetch-and-validate path only on such indices — completed chapters are
never re-fetched. -/
theorem getRemainingChapters_spec_and_no_refetch (t : Tracker)
    (c : Checkpoint) (h : t.checkpoint = some c) :
    (∀ i, i ∈ getRemainingChapters t ↔
      i < t.totalChapters ∧ i ∉ c.completedChapters) ∧
    (getRemainingChapters t).Sorted (· < ·) ∧
    (∀ env book ckStore cache st,
      scrapeAllChapters env book t ckStore cache = Except.ok st →
      ∀ i ∈ st.fetched, i ∈ getRemainingChapters t) := by
  refine ⟨?_, ?_, ?_⟩
  · intro i
    simp [getRemainingChapters, h, List.mem_filter]
  · rw [getRemainingChapters, h]
    exact (List.pairwise_lt_range t.totalChapters).filter _
  · intro env book ckStore cache st hrun
    simp only [scrapeAllChapters] at hrun
    split at hrun
    · exact absurd hrun (by simp)
    · rename_i stL hfold
      cases hrun
      intro i hi
      have hfetch : i ∈ stL.fetched := hi
      rcases foldlM_scrapeStep_fetched (getRemainingChapters t) _ _ hfold i
        hfetch with h0 | h0
      · exact absurd h0 (by simp)
      · exact h0

def cW : Checkpoint :=
  { bookId := "bk", bookUrl := "u", totalChapters := 3,
    completedChapters := [1], failedChapters := [],
    currentChapter := none, status := CkStatus.in_progress }

def tW : Tracker :=
  { bookId := "bk", bookUrl := "u", totalChapters := 3,
    checkpoint := some cW }

theorem getRemainingChapters_spec_witness :
    (0 ∈ getRemainingChapters tW ↔
      0 < tW.totalChapters ∧ 0 ∉ cW.completedChapters) ∧
    (getRemainingChapters tW).Sorted (· < ·) :=
  ⟨(getRemainingChapters_spec_and_no_refetch tW cW rfl).1 0,
    (getRemainingChapters_spec_and_no_refetch tW cW rfl).2.1⟩

/-! ## C8 -/

theorem jsSortNums_range (n : Nat) : jsSortNums (List.range n) = List.range n :=
  List.Sorted.insertionSort_eq
    ((List.pairwise_lt_range n).imp (fun h => le_of_lt h))

/-- A duplicate-free list of naturals below `n` has length `n` exactly
when it covers every index below `n`. -/
theorem length_eq_iff_cover {l : List Nat} {n : Nat} (hnd : l.Nodup)
    (hb : ∀ i ∈ l, i < n) : l.length = n ↔ ∀ i < n, i ∈ l := by
  have hsub : l.toFinset ⊆ Finset.range n := by
    intro i hi
    rw [Finset.mem_range]
    exact hb i (List.mem_toFinset.mp hi)
  have hcard : l.toFinset.card = l.length := List.toFinset_card_of_nodup hnd
  constructor
  · intro hlen i hin
    have heq : l.toFinset = Finset.range n := by
      apply Finset.eq_of_subset_of_card_le hsub
      rw [hcard, hlen, Finset.card_range]
    have : i ∈ Finset.range n := Finset.mem_range.mpr hin
    rw [← heq] at this
    exact List.mem_toFinset.mp this
  · intro hcover
    have hsup : Finset.range n ⊆ l.toFinset := by
      intro i hi
      exact List.mem_toFinset.mpr (hcover i (Finset.mem_range.mp hi))
    have h1 : l.toFinset.card ≤ n := by
      simpa [Finset.card_range] using Finset.card_le_card hsub
    have h2 : n ≤ l.toFinset.card := by
      simpa [Finset.card_range] using Finset.card_le_card hsup
    omega

/-- `finalize` deletes the checkpoint exactly when the (consistent,
in-range, duplicate-free) completed set covers every chapter index. -/
theorem finalize_deletes_iff (t : Tracker) (store : CheckpointStore)
    (c : Checkpoint) (h : t.checkpoint = some c)
    (hload : loadCheckpoint store t.bookId = some c)
    (hnd : c.completedChapters.Nodup)
    (hb : ∀ i ∈ c.completedChapters, i < t.totalChapters) :
    (trackerFinalize t store t.bookId = none ↔
      ∀ i < t.totalChapters, i ∈ c.completedChapters) ∧
    (¬ (∀ i < t.totalChapters, i ∈ c.completedChapters) →
      trackerFinalize t store = store) := by
  have hcover := length_eq_iff_cover hnd hb
  by_cases hcomp : c.completedChapters.length = t.totalChapters
  · constructor
    · constructor
      · intro _
        exact hcover.mp hcomp
      · intro _
        simp [trackerFinalize, h, trackerIsComplete, hcomp, deleteCheckpoint]
    · intro hnc
      exact absurd (hcover.mp hcomp) hnc
  · constructor
    · constructor
      · intro hdel
        exfalso
        have : trackerFinalize t store t.bookId = some c := by
          simp [trackerFinalize, h, trackerIsComplete, hcomp]
          exact hload
        rw [hdel] at this
        exact absurd this (by simp)
      · intro hcov
        exact absurd (hcover.mpr hcov) hcomp
    · intro _
      simp [trackerFinalize, h, trackerIsComplete, hcomp]

theorem startChapter_some {t : Tracker} (store : CheckpointStore)
    {c : Checkpoint} (k : Nat) (h : t.checkpoint = some c) :
    startChapter t store k =
      Except.ok
        ({ t with checkpoint := some { c with currentChapter := some k } },
          saveCheckpoint store { c with currentChapter := some k }) := by
  simp [startChapter, h]

/-- The checkpoint after `markChapterComplete k`. -/
def ckMarkComplete (c : Checkpoint) (k : Nat) : Checkpoint :=
  { c with
    completedChapters :=
      if k ∈ c.completedChapters then c.completedChapters
      else jsSortNums (c.completedChapters ++ [k]),
    failedChapters := c.failedChapters.filter (fun idx => idx ≠ k) }

theorem scrapeFinish_success {t1 : Tracker} {store1 : CheckpointStore}
    (cacheX : CacheStore) (contentsX : Nat → Option String)
    (fetchedX : List Nat) (k : Nat) {c1 : Checkpoint}
    (ht1 : t1.checkpoint = some c1) (hb1 : c1.bookId = t1.bookId)
    (hload1 : loadCheckpoint store1 t1.bookId = some c1) :
    ∃ st', scrapeFinish t1 store1 cacheX contentsX fetchedX k =
        Except.ok st' ∧
      st'.tracker = { t1 with checkpoint := some (ckMarkComplete c1 k) } ∧
      st'.ckStore = markChapterComplete store1 t1.bookId k ∧
      st'.cache = cacheX ∧ st'.contents = contentsX ∧
      st'.fetched = fetchedX := by
  have hload2 := markChapterComplete_load k hload1 hb1
  have hcc : completeChapter t1 store1 k =
      Except.ok
        ({ t1 with checkpoint :=
            loadCheckpoint (markChapterComplete store1 t1.bookId k) t1.bookId },
          markChapterComplete store1 t1.bookId k) := by
    simp [completeChapter, ht1]
  refine
    ⟨{ tracker := { t1 with checkpoint := some (ckMarkComplete c1 k) },
       ckStore := markChapterComplete store1 t1.bookId k,
       cache := cacheX, contents := contentsX, fetched := fetchedX },
      ?_, rfl, rfl, rfl, rfl, rfl⟩
  rw [scrapeFinish, hcc]
  simp only [hload2]
  rfl

/-- The checkpoint after one fully successful loop iteration on chapter
`k`: `startChapter` stamps `currentChapter`, then the completion mark
rewrites the two index sets. -/
def ckStep (c : Checkpoint) (k : Nat) : Checkpoint :=
  ckMarkComplete { c with currentChapter := some k } k

theorem scrapeStep_success (env : ScrapeEnv) (book : Book)
    {t : Tracker} {store : CheckpointStore} {cache : CacheStore}
    {contents : Nat → Option String} {fetched : List Nat}
    {c : Checkpoint} {k : Nat}
    (hch : k < book.chapters.length)
    (ht : t.checkpoint = some c) (hb : c.bookId = t.bookId)
    (hfetch : ∃ v, env.fetch k = Except.ok v) :
    ∃ st', scrapeStep env book
        { tracker := t, ckStore := store, cache := cache,
          contents := contents, fetched := fetched } k = Except.ok st' ∧
      st'.tracker = { t with checkpoint := some (ckStep c k) } ∧
      loadCheckpoint st'.ckStore t.bookId = some (ckStep c k) := by
  obtain ⟨ch, hch2⟩ : ∃ ch, book.chapters[k]? = some ch :=
    ⟨_, List.getElem?_eq_getElem hch⟩
  have hstart := startChapter_some store k ht
  have hload1 : loadCheckpoint
      (saveCheckpoint store { c with currentChapter := some k })
      (({ t with checkpoint := some { c with currentChapter := some k } } :
        Tracker).bookId) = some { c with currentChapter := some k } := by
    simp [loadCheckpoint, saveCheckpoint, hb]
  have hb1 : ({ c with currentChapter := some k } : Checkpoint).bookId =
      (({ t with checkpoint := some { c with currentChapter := some k } } :
        Tracker).bookId) := hb
  cases hcache : getChapter env.sha cache book.id k with
  | some cached =>
    obtain ⟨st', hfin, htr, hck, _, _, _⟩ := scrapeFinish_success
      cache (setContent contents k cached.content) fetched k rfl hb1 hload1
    refine ⟨st', ?_, htr, ?_⟩
    · simp only [scrapeStep, hch2, hstart, hcache]
      exact hfin
    · rw [hck]
      exact markChapterComplete_load k hload1 hb1
  | none =>
    obtain ⟨v, hv⟩ := hfetch
    obtain ⟨st', hfin, htr, hck, _, _, _⟩ := scrapeFinish_success
      (saveChapter env.sha cache book.id
        { chapterIndex := k, title := ch.title, url := ch.url,
          content := v, scrapedAt := "", hash := "" } env.now)
      (setContent contents k v) (fetched ++ [k]) k rfl hb1 hload1
    refine ⟨st', ?_, htr, ?_⟩
    · simp only [scrapeStep, hch2, hstart, hcache, hv]
      exact hfin
    · rw [hck]
      exact markChapterComplete_load k hload1 hb1

theorem ckStep_range {c : Checkpoint} {k : Nat}
    (hc : c.completedChapters = List.range k) (hf : c.failedChapters = []) :
    ckStep c k =
      { c with
        currentChapter := some k,
        completedChapters := List.range (k + 1),
        failedChapters := [] } := by
  simp only [ckStep, ckMarkComplete, hc, hf]
  rw [if_neg (by simp), ← List.range_succ, jsSortNums_range]
  simp

/-- A zero-failure pass over the remaining suffix `[k, N)` of chapters
drives the completed set from `{0..k-1}` to `{0..N-1}`. -/
theorem scrapeRun (env : ScrapeEnv) (book : Book) (N : Nat)
    (hlen : book.chapters.length = N)
    (hfetch : ∀ i, i < N → ∃ v, env.fetch i = Except.ok v) :
    ∀ (m k : Nat), k + m = N →
    ∀ (t : Tracker) (store : CheckpointStore) (cache : CacheStore)
      (contents : Nat → Option String) (fetched : List Nat) (c : Checkpoint),
    t.checkpoint = some c → c.bookId = t.bookId →
    loadCheckpoint store t.bookId = some c →
    c.completedChapters = List.range k → c.failedChapters = [] →
    ∃ st' c', List.foldlM (scrapeStep env book)
        { tracker := t, ckStore := store, cache := cache,
          contents := contents, fetched := fetched }
        (List.range' k m) = Except.ok st' ∧
      st'.tracker = { t with checkpoint := some c' } ∧
      loadCheckpoint st'.ckStore t.bookId = some c' ∧
      c'.bookId = t.bookId ∧
      c'.completedChapters = List.range N ∧ c'.failedChapters = [] := by
  intro m
  induction m with
  | zero =>
    intro k hkN t store cache contents fetched c ht hb hload hc hf
    obtain ⟨tb, tu, tn, tcp⟩ := t
    simp only at ht
    subst ht
    refine
      ⟨{ tracker := ⟨tb, tu, tn, some c⟩, ckStore := store, cache := cache,
         contents := contents, fetched := fetched }, c, rfl, rfl, hload, hb,
        ?_, hf⟩
    rw [hc, show k = N by omega]
  | succ m ih =>
    intro k hkN t store cache contents fetched c ht hb hload hc hf
    have hch : k < book.chapters.length := by omega
    obtain ⟨st1, hstep, htr1, hload1⟩ :=
      scrapeStep_success env book hch ht hb (hfetch k (by omega))
    have heta : st1 =
        { tracker := st1.tracker, ckStore := st1.ckStore, cache := st1.cache,
          contents := st1.contents, fetched := st1.fetched } := rfl
    have hck1 : (ckStep c k).completedChapters = List.range (k + 1) := by
      rw [ckStep_range hc hf]
    have hcf1 : (ckStep c k).failedChapters = [] := by
      rw [ckStep_range hc hf]
    have hb1 : (ckStep c k).bookId =
        ({ t with checkpoint := some (ckStep c k) } : Tracker).bookId := hb
    obtain ⟨st', c', hfold, htr', hload', hb', hcc', hcf'⟩ :=
      ih (k + 1) (by omega) { t with checkpoint := some (ckStep c k) }
        st1.ckStore st1.cache st1.contents st1.fetched (ckStep c k)
        rfl hb1 hload1 hck1 hcf1
    refine ⟨st', c', ?_, htr', hload', hb', hcc', hcf'⟩
    have hlist : List.range' k (m + 1) = k :: List.range' (k + 1) m := rfl
    rw [hlist, List.foldlM_cons, hstep]
    show List.foldlM (scrapeStep env book) st1 (List.range' (k + 1) m) =
      Except.ok st'
    rw [heta, htr1]
    exact hfold

theorem scrapeAllChapters_of_fold (env : ScrapeEnv) (book : Book)
    (t : Tracker) (ckSt : CheckpointStore) (cache : CacheStore)
    (st' : ScrapeState)
    (hfold : List.foldlM (scrapeStep env book)
      { tracker := t, ckStore := ckSt, cache := cache,
        contents := fun _ => none, fetched := [] }
      (getRemainingChapters t) = Except.ok st') :
    ∃ st, scrapeAllChapters env book t ckSt cache = Except.ok st ∧
      st.tracker = st'.tracker ∧ st.ckStore = st'.ckStore ∧
      st.fetched = st'.fetched := by
  simp only [scrapeAllChapters, hfold]
  exact ⟨_, rfl, rfl, rfl, rfl⟩

/-- C8: (i) for a consistent tracker/store pair, `finalize` deletes the
checkpoint exactly when the duplicate-free, in-range completed set
covers every index `0..N-1` (and leaves the store untouched otherwise);
(ii) a run over a fresh checkpoint in which every fetch succeeds ends
with `completed = {0..N-1}` and a `finalize` that deletes the
checkpoint. -/
theorem finalize_coverage_and_full_run :
    (∀ (t : Tracker) (store : CheckpointStore) (c : Checkpoint),
      t.checkpoint = some c → loadCheckpoint store t.bookId = some c →
      c.completedChapters.Nodup →
      (∀ i ∈ c.completedChapters, i < t.totalChapters) →
      ((trackerFinalize t store t.bookId = none ↔
        ∀ i < t.totalChapters, i ∈ c.completedChapters) ∧
       (¬ (∀ i < t.totalChapters, i ∈ c.completedChapters) →
         trackerFinalize t store = store))) ∧
    (∀ (env : ScrapeEnv) (book : Book) (bookId bookUrl : String)
       (store0 : CheckpointStore) (cache : CacheStore),
      loadCheckpoint store0 bookId = none →
      (∀ i, i < book.chapters.length → ∃ v, env.fetch i = Except.ok v) →
      ∃ st c',
        scrapeAllChapters env book
          (trackerInitialize store0 bookId bookUrl book.chapters.length).1
          (trackerInitialize store0 bookId bookUrl book.chapters.length).2
          cache = Except.ok st ∧
        st.tracker.checkpoint = some c' ∧
        c'.completedChapters = List.range book.chapters.length ∧
        trackerFinalize st.tracker st.ckStore bookId = none) := by
  constructor
  · intro t store c ht hload hnd hb
    exact finalize_deletes_iff t store c ht hload hnd hb
  · intro env book bookId bookUrl store0 cache hnone hfetch
    have hinit : trackerInitialize store0 bookId bookUrl book.chapters.length =
        ({ bookId := bookId, bookUrl := bookUrl,
           totalChapters := book.chapters.length,
           checkpoint := some
             { bookId := bookId, bookUrl := bookUrl,
               totalChapters := book.chapters.length,
               completedChapters := [], failedChapters := [],
               currentChapter := none, status := CkStatus.in_progress } },
          saveCheckpoint store0
            { bookId := bookId, bookUrl := bookUrl,
              totalChapters := book.chapters.length,
              completedChapters := [], failedChapters := [],
              currentChapter := none, status := CkStatus.in_progress }) := by
      simp [trackerInitialize, createCheckpoint, hnone]
    obtain ⟨st', c', hfold, htr', hload', hb', hcc', hcf'⟩ :=
      scrapeRun env book book.chapters.length rfl hfetch
        book.chapters.length 0 (by omega)
        { bookId := bookId, bookUrl := bookUrl,
          totalChapters := book.chapters.length,
          checkpoint := some
            { bookId := bookId, bookUrl := bookUrl,
              totalChapters := book.chapters.length,
              completedChapters := [], failedChapters := [],
              currentChapter := none, status := CkStatus.in_progress } }
        (saveCheckpoint store0
          { bookId := bookId, bookUrl := bookUrl,
            totalChapters := book.chapters.length,
            completedChapters := [], failedChapters := [],
            currentChapter := none, status := CkStatus.in_progress })
        cache (fun _ => none) [] _ rfl rfl
        (by simp [loadCheckpoint, saveCheckpoint]) rfl rfl
    have hrem : getRemainingChapters
        ({ bookId := bookId, bookUrl := bookUrl,
           totalChapters := book.chapters.length,
           checkpoint := some
             { bookId := bookId, bookUrl := bookUrl,
               totalChapters := book.chapters.length,
               completedChapters := [], failedChapters := [],
               currentChapter := none, status := CkStatus.in_progress } } :
          Tracker) = List.range book.chapters.length := by
      simp [getRemainingChapters]
    rw [← List.range_eq_range', ← hrem] at hfold
    obtain ⟨st, hrun, htr, hck, _⟩ := scrapeAllChapters_of_fold env book
      _ _ cache st' hfold
    refine ⟨st, c', ?_, ?_, hcc', ?_⟩
    · rw [hinit]
      exact hrun
    · rw [htr, htr']
    · rw [htr, hck, htr']
      simp [trackerFinalize, trackerIsComplete, hcc', deleteCheckpoint]

def bookW : Book :=
  { id := "bk", title := "T", author := "A", url := "u",
    chapters := [{ title := "c0", url := "u0", index := 0 },
      { title := "c1", url := "u1", index := 1 }] }

def envW : ScrapeEnv :=
  { fetch := fun _ => Except.ok "chapter body", sha := lenSha, now := "now" }

theorem finalize_coverage_and_full_run_witness :
    ∃ st c',
      scrapeAllChapters envW bookW
        (trackerInitialize (fun _ => none) "bk" "u" bookW.chapters.length).1
        (trackerInitialize (fun _ => none) "bk" "u" bookW.chapters.length).2
        (fun _ _ => none) = Except.ok st ∧
      st.tracker.checkpoint = some c' ∧
      c'.completedChapters = List.range bookW.chapters.length ∧
      trackerFinalize st.tracker st.ckStore "bk" = none :=
  finalize_coverage_and_full_run.2 envW bookW "bk" "u" (fun _ => none)
    (fun _ _ => none) rfl (fun _ _ => ⟨"chapter body", rfl⟩)
